import Mathlib

set_option maxRecDepth 100000

/-!
Shallow embedding of the WaterMeterAgent repository (rule-based extraction
pipeline).  Text is modelled as `List Char` (ASCII-faithful: the Python code
uses `re` with `\w`/`\s` and `str.upper`, modelled here on the ASCII range,
which covers every catalog entry, unit token and claim input).  Python floats
are modelled as `ℚ` (every numeric literal the pipeline parses is a finite
decimal, and the comparisons the claims exercise are far from rounding
boundaries).  Python exceptions are modelled with `Except String`.
-/

/-- Codes of the characters matched by Python's `\s` (ASCII): space, tab,
newline, carriage return, vertical tab, form feed.  Also the set stripped by
`str.strip()`. -/
def pyIsSpace (c : Char) : Bool :=
  c.toNat = 32 || c.toNat = 9 || c.toNat = 10 || c.toNat = 13 ||
    c.toNat = 11 || c.toNat = 12

/-- Characters matched by Python's `\w` (ASCII): letters, digits, underscore. -/
def pyIsWord (c : Char) : Bool :=
  (48 ≤ c.toNat && c.toNat ≤ 57) || (65 ≤ c.toNat && c.toNat ≤ 90) ||
    (97 ≤ c.toNat && c.toNat ≤ 122) || c.toNat = 95

/-- The character class kept by `re.sub(r'[^\w\s\.\-:/]', ' ', _)` in
`clean_text_tool`: word characters, whitespace, `.`, `-`, `:`, `/`. -/
def keepChar (c : Char) : Bool :=
  pyIsWord c || pyIsSpace c || c.toNat = 46 || c.toNat = 45 ||
    c.toNat = 58 || c.toNat = 47

/-- `str.strip()`: drop leading and trailing whitespace. -/
def pyStrip (l : List Char) : List Char :=
  ((l.dropWhile pyIsSpace).reverse.dropWhile pyIsSpace).reverse

/-- `re.sub(r'\s+', ' ', _)`: collapse every maximal whitespace run to a
single space. -/
def collapseWs : List Char → List Char
  | [] => []
  | [c] => if pyIsSpace c then [' '] else [c]
  | c :: d :: rest =>
    if pyIsSpace c then
      if pyIsSpace d then collapseWs (d :: rest)
      else ' ' :: collapseWs (d :: rest)
    else c :: collapseWs (d :: rest)

/-- `re.sub(r'[^\w\s\.\-:/]', ' ', _)`: replace every non-kept character by a
space. -/
def replaceSpecial (l : List Char) : List Char :=
  l.map (fun c => if keepChar c then c else ' ')

/-- `clean_text_tool` from `water_meter_agent.py` (identical to
`CleanTextTool.run` in `local_langchain_style_agent.py`):
strip, collapse whitespace, replace special characters by spaces, uppercase. -/
def clean_text_tool (l : List Char) : List Char :=
  (replaceSpecial (collapseWs (pyStrip l))).map Char.toUpper

example : clean_text_tool "  Kitchen   meter!  ".toList = "KITCHEN METER ".toList := by decide

example : clean_text_tool "a!".toList = "A ".toList := by decide

example : clean_text_tool (clean_text_tool "a!".toList) = "A".toList := by decide

/-- Split a list into its maximal leading run of ASCII digits and the rest. -/
def takeDigits : List Char → List Char × List Char
  | [] => ([], [])
  | c :: cs =>
    if c.isDigit then
      let p := takeDigits cs
      (c :: p.1, p.2)
    else ([], c :: cs)

theorem takeDigits_snd_length_le (l : List Char) : (takeDigits l).2.length ≤ l.length := by
  induction l with
  | nil => simp [takeDigits]
  | cons c cs ih =>
    simp only [takeDigits]
    split
    · simpa using Nat.le_succ_of_le ih
    · simp

/-- Numeric value of a digit run (most significant first). -/
def digitsVal (l : List Char) : Nat :=
  l.foldl (fun acc c => 10 * acc + (c.toNat - 48)) 0

/-- Value of `float("<int>.<frac>")` as a rational. -/
def decVal (intPart fracPart : List Char) : ℚ :=
  mkRat (Int.ofNat (digitsVal intPart * Nat.pow 10 fracPart.length + digitsVal fracPart))
    (Nat.pow 10 fracPart.length)

/-- `re.findall(r'\d+\.?\d*', text)` followed by `float` on each match
(`extract_numbers_tool`): scan left to right; at each digit start, consume a
maximal digit run, then optionally a dot and a further maximal digit run.
Structural recursion on a fuel argument; every recursive call consumes at
least one character, so fuel `length + 1` never runs out. -/
def scanNumbersF : Nat → List Char → List ℚ
  | 0, _ => []
  | _, [] => []
  | fuel + 1, c :: cs =>
    if c.isDigit then
      let p := takeDigits cs
      match p.2 with
      | '.' :: r2 =>
        let q := takeDigits r2
        decVal (c :: p.1) q.1 :: scanNumbersF fuel q.2
      | r => decVal (c :: p.1) [] :: scanNumbersF fuel r
    else scanNumbersF fuel cs

/-- `extract_numbers_tool` from `water_meter_agent.py` (identical regex in
`ExtractNumbersTool.run`). -/
def extract_numbers_tool (text : List Char) : List ℚ :=
  scanNumbersF (text.length + 1) text

example : extract_numbers_tool "WM001 150 CUBIC METERS 2025-01-15".toList
    = [1, 150, 2025, 1, 15] := by decide

example : extract_numbers_tool "KITCHEN METER READING IS 150.5 CUBIC METERS".toList
    = [mkRat 301 2] := by decide

/-- Does `l` start with `p`? -/
def startsWithL : List Char → List Char → Bool
  | _, [] => true
  | [], _ :: _ => false
  | c :: cs, p :: ps => c = p && startsWithL cs ps

/-- Python's substring test `p in t` (for `str`): `p` occurs contiguously in
`t` (the empty string occurs in everything). -/
def hasSub : List Char → List Char → Bool
  | [], p => p.isEmpty
  | c :: ts, p => startsWithL (c :: ts) p || hasSub ts p

example : hasSub "WM001 150".toList "WM001".toList = true := by decide
example : hasSub "MAIN SUPPLY 500".toList "L".toList = true := by decide
example : hasSub "MAIN SUPPLY 500".toList "GAL".toList = false := by decide

/-- Length of the common prefix of two lists. -/
def runLen : List Char → List Char → Nat
  | a :: as, b :: bs => if a = b then runLen as bs + 1 else 0
  | _, _ => 0

/-- `difflib.SequenceMatcher.find_longest_match` over the whole of `a` and
`b`, with no junk (autojunk only fires on sequences of length ≥ 200; every
text this program matches is far shorter): the longest block `(i, j, k)` with
`a[i:i+k] == b[j:j+k]`, ties broken by least `i`, then least `j`. -/
def bestBlock (a b : List Char) : Nat × Nat × Nat :=
  (List.range a.length).foldl
    (fun acc i =>
      (List.range b.length).foldl
        (fun acc2 j =>
          let k := runLen (a.drop i) (b.drop j)
          if k > acc2.2.2 then (i, j, k) else acc2)
        acc)
    (0, 0, 0)

/-- Total size of the matching blocks of `difflib.SequenceMatcher`
(`get_matching_blocks`): recursively split around the longest match.  Fuel
is structural;  each recursive call strictly shrinks the first list (the
longest match has `k ≥ 1`), so fuel `a.length + 1` never runs out. -/
def matchTotal : Nat → List Char → List Char → Nat
  | 0, _, _ => 0
  | fuel + 1, a, b =>
    let t := bestBlock a b
    if t.2.2 = 0 then 0
    else
      t.2.2 + matchTotal fuel (a.take t.1) (b.take t.2.1) +
        matchTotal fuel (a.drop (t.1 + t.2.2)) (b.drop (t.2.1 + t.2.2))

/-- `SequenceMatcher(None, a, b).ratio()` = `2 * M / (len(a) + len(b))`
where `M` is the total size of the matching blocks (as an exact rational;
every comparison the program makes with it is far from the float rounding
boundary). -/
def matchScore (a b : List Char) : ℚ :=
  mkRat (Int.ofNat (2 * matchTotal (a.length + 1) a b)) (a.length + b.length)

example : matchScore "WM001".toList "WM001 150".toList = mkRat 5 7 := by decide

/-- `fuzzy_match_tool` from `water_meter_agent.py`: walk the dictionary keys
in insertion order; return the first key that is a substring of `text`;
otherwise remember the best similarity score that is strictly larger than the
best so far and at least the threshold. -/
def fuzzyGo (text : List Char) (threshold : ℚ) :
    List (List Char) → Option (List Char) → ℚ → Option (List Char)
  | [], best, _ => best
  | k :: ks, best, bestScore =>
    if hasSub text k then some k
    else
      let score := matchScore k text
      if score > bestScore ∧ score ≥ threshold then
        fuzzyGo text threshold ks (some k) score
      else
        fuzzyGo text threshold ks best bestScore

/-- `fuzzy_match_tool(text, dictionary, threshold=0.6)`; only the keys of the
dictionary are consulted. -/
def fuzzy_match_tool (text : List Char) (keys : List (List Char)) : Option (List Char) :=
  fuzzyGo text (mkRat 3 5) keys none 0

example : fuzzy_match_tool "WM001 150 CUBIC METERS 2025-01-15".toList
    ["WM001".toList, "WM002".toList] = some "WM001".toList := by decide

/-- The `unit_map` of `standardize_unit_tool`, in dict insertion order. -/
def unitMap : List (List Char × List Char) :=
  [("CU M".toList, "cubic_meters".toList),
   ("CUBIC M".toList, "cubic_meters".toList),
   ("M3".toList, "cubic_meters".toList),
   ("CUBIC METER".toList, "cubic_meters".toList),
   ("CUBIC METERS".toList, "cubic_meters".toList),
   ("GAL".toList, "gallons".toList),
   ("GALLON".toList, "gallons".toList),
   ("GALLONS".toList, "gallons".toList),
   ("L".toList, "liters".toList),
   ("LITER".toList, "liters".toList),
   ("LITERS".toList, "liters".toList)]

/-- First-matching-variant scan of an association list by substring test. -/
def firstVariant (text : List Char) : List (List Char × List Char) → Option (List Char)
  | [] => none
  | (variant, standard) :: rest =>
    if hasSub text variant then some standard else firstVariant text rest

/-- `standardize_unit_tool` from `water_meter_agent.py` (identical table and
order in `StandardizeUnitTool.run`): first unit variant occurring as a
substring wins; default `cubic_meters`. -/
def standardize_unit_tool (text : List Char) : List Char :=
  (firstVariant text unitMap).getD "cubic_meters".toList

example : standardize_unit_tool "MAIN SUPPLY 500".toList = "liters".toList := by decide
example : standardize_unit_tool "KITCHEN METER READING IS 150.5 CUBIC METERS".toList
    = "cubic_meters".toList := by decide

/-- The `ranges` table of `validate_range_tool`. -/
def rangesTable : List (List Char × ℚ × ℚ) :=
  [("cubic_meters".toList, 0, 1000),
   ("gallons".toList, 0, 264000),
   ("liters".toList, 0, 1000000)]

/-- `validate_range_tool(value, unit)`: `(is_valid, message)`.  The message
strings are summarised by tag (no claim inspects their exact text); the
Boolean and the branch structure follow the source exactly. -/
def validate_range_tool (value : ℚ) (unit : List Char) : Bool × List Char :=
  match (rangesTable.find? (fun e => e.1 = unit)) with
  | none => (true, "cannot validate range".toList)
  | some e =>
    if e.2.1 ≤ value ∧ value ≤ e.2.2 then
      (true, "within expected range".toList)
    else
      (false, "outside expected range".toList)

/-- A calendar date, as held by Python's `datetime`. -/
structure Date where
  year : Nat
  month : Nat
  day : Nat
deriving DecidableEq, Repr

/-- Gregorian month lengths (as validated by `datetime.replace`). -/
def daysInMonth (y m : Nat) : Nat :=
  if m = 2 then
    if y % 4 = 0 ∧ (y % 100 ≠ 0 ∨ y % 400 = 0) then 29 else 28
  else if m = 4 ∨ m = 6 ∨ m = 9 ∨ m = 11 then 30
  else 31

/-- `datetime.replace(day=n)`: raises `ValueError` unless
`1 <= n <= days_in_month`.  `n` is an `Int` because the code computes
`day - 1`, which Python does not clamp. -/
def pyReplaceDay (d : Date) (n : Int) : Except (List Char) Date :=
  if 1 ≤ n ∧ n ≤ Int.ofNat (daysInMonth d.year d.month) then
    Except.ok ⟨d.year, d.month, n.toNat⟩
  else
    Except.error "day is out of range for month".toList

/-- Zero-padded decimal rendering used by `strftime('%Y-%m-%d')`. -/
def pad2 (n : Nat) : List Char :=
  if n < 10 then '0' :: (Nat.toDigits 10 n) else Nat.toDigits 10 n

/-- `strftime('%Y-%m-%d')` (years in this program are four-digit). -/
def fmtDate (d : Date) : List Char :=
  Nat.toDigits 10 d.year ++ '-' :: pad2 d.month ++ '-' :: pad2 d.day

example : fmtDate ⟨2025, 1, 15⟩ = "2025-01-15".toList := by decide

/-- Match exactly `n` digits at the head; return them and the rest. -/
def exactDigits : Nat → List Char → Option (List Char × List Char)
  | 0, l => some ([], l)
  | _ + 1, [] => none
  | n + 1, c :: cs =>
    if c.isDigit then (exactDigits n cs).map (fun p => (c :: p.1, p.2)) else none

/-- Match one literal character at the head. -/
def exactChar (ch : Char) : List Char → Option (List Char)
  | [] => none
  | c :: cs => if c = ch then some cs else none

/-- Match `\d{a}<sep>\d{b}<sep>\d{c}` at the head, returning the matched
substring. -/
def matchDDD (a : Nat) (b : Nat) (c : Nat) (sep : Char) (l : List Char) :
    Option (List Char) := do
  let p1 ← exactDigits a l
  let r1 ← exactChar sep p1.2
  let p2 ← exactDigits b r1
  let r2 ← exactChar sep p2.2
  let p3 ← exactDigits c r2
  pure (p1.1 ++ sep :: p2.1 ++ sep :: p3.1)

/-- Match `\d{1,2}/\d{1,2}/\d{4}` at the head (greedy with backtracking:
two digits are preferred over one for each `\d{1,2}`). -/
def matchFlexDate (l : List Char) : Option (List Char) :=
  (matchDDD 2 2 4 '/' l).orElse fun _ =>
    (matchDDD 2 1 4 '/' l).orElse fun _ =>
      (matchDDD 1 2 4 '/' l).orElse fun _ =>
        matchDDD 1 1 4 '/' l

/-- `re.search`: try the matcher at each position, left to right. -/
def searchFirst (f : List Char → Option (List Char)) : List Char → Option (List Char)
  | [] => f []
  | c :: cs =>
    match f (c :: cs) with
    | some m => some m
    | none => searchFirst f cs

/-- The four date patterns of `parse_date_tool`, in source order:
`\d{4}-\d{2}-\d{2}`, `\d{2}/\d{2}/\d{4}`, `\d{1,2}/\d{1,2}/\d{4}`,
`\d{2}-\d{2}-\d{4}`. -/
def findDatePattern (text : List Char) : Option (List Char) :=
  (searchFirst (matchDDD 4 2 2 '-') text).orElse fun _ =>
    (searchFirst (matchDDD 2 2 4 '/') text).orElse fun _ =>
      (searchFirst matchFlexDate text).orElse fun _ =>
        searchFirst (matchDDD 2 2 4 '-') text

/-- `parse_date_tool` from `water_meter_agent.py` (identical logic in
`ParseDateTool.run`).  `today` stands for `datetime.now()`; the `YESTERDAY`
branch is `datetime.now().replace(day=datetime.now().day - 1)`, which raises
`ValueError` when `day - 1` is `0`. -/
def parse_date_tool (text : List Char) (today : Date) : Except (List Char) (List Char) :=
  match findDatePattern text with
  | some m => Except.ok m
  | none =>
    if hasSub text "TODAY".toList then Except.ok (fmtDate today)
    else if hasSub text "YESTERDAY".toList then
      (pyReplaceDay today (Int.ofNat today.day - 1)).map fmtDate
    else Except.ok (fmtDate today)

example : parse_date_tool "WM001 150 CUBIC METERS 2025-01-15".toList ⟨2025, 6, 10⟩
    = Except.ok "2025-01-15".toList := by rfl
example : parse_date_tool "READING YESTERDAY".toList ⟨2025, 3, 1⟩
    = Except.error "day is out of range for month".toList := by rfl
example : parse_date_tool "READING YESTERDAY".toList ⟨2025, 3, 15⟩
    = Except.ok "2025-03-14".toList := by rfl

/-- `self.meter_tags` keys (dict insertion order). -/
def meterTagKeys : List (List Char) :=
  ["WM001".toList, "WM002".toList, "WM003".toList, "WM004".toList, "WM005".toList]

/-- `self.meter_tags` as an association list (tag, description). -/
def meterTagsTable : List (List Char × List Char) :=
  [("WM001".toList, "Kitchen Water Meter".toList),
   ("WM002".toList, "Bathroom Water Meter".toList),
   ("WM003".toList, "Garden Water Meter".toList),
   ("WM004".toList, "Main Water Supply".toList),
   ("WM005".toList, "Hot Water Heater".toList)]

/-- `self.name_to_tag` as an association list (alias, canonical tag), in dict
insertion order. -/
def nameToTagTable : List (List Char × List Char) :=
  [("KITCHEN".toList, "WM001".toList),
   ("BATH".toList, "WM002".toList),
   ("BATHROOM".toList, "WM002".toList),
   ("GARDEN".toList, "WM003".toList),
   ("YARD".toList, "WM003".toList),
   ("MAIN".toList, "WM004".toList),
   ("SUPPLY".toList, "WM004".toList),
   ("HEATER".toList, "WM005".toList),
   ("HOT".toList, "WM005".toList)]

/-- Keys of `self.name_to_tag`. -/
def nameToTagKeys : List (List Char) := nameToTagTable.map (fun p => p.1)

/-- The mutable parsing state threaded through the ReAct loop
(`state` dict in `parse_reading`). -/
structure AgentState where
  raw : List Char
  cleaned : Option (List Char) := none
  meterTag : Option (List Char) := none
  readingValue : Option ℚ := none
  unit : Option (List Char) := none
  date : Option (List Char) := none
  warnings : List (List Char) := []
  confidence : ℚ := 0
deriving DecidableEq, Repr

/-- The actions the think phase can decide on. -/
inductive AgentAction where
  | CLEAN_TEXT
  | IDENTIFY_METER
  | EXTRACT_READING
  | IDENTIFY_UNIT
  | PARSE_DATE
  | VALIDATE
  | COMPLETE
  | FAIL
deriving DecidableEq, Repr

/-- `WaterMeterAgent._think`: strict elif chain on the unset state fields.
Note there is no branch returning `COMPLETE`: once all fields are set the
`else` branch keeps returning `VALIDATE`. -/
def wThink (st : AgentState) : AgentAction :=
  match st.cleaned with
  | none => .CLEAN_TEXT
  | some cl =>
    match st.meterTag with
    | none => if (pyStrip cl).isEmpty then .FAIL else .IDENTIFY_METER
    | some _ =>
      match st.readingValue with
      | none => .EXTRACT_READING
      | some _ =>
        match st.unit with
        | none => .IDENTIFY_UNIT
        | some _ =>
          match st.date with
          | none => .PARSE_DATE
          | some _ => .VALIDATE

/-- `max(numbers)` on a nonempty Python list. -/
def pyMax (n : ℚ) (ns : List ℚ) : ℚ :=
  ns.foldl (fun a b => if a < b then b else a) n

/-- Python `str(float)` for the values this program formats into duplicate
signatures (`150.0` style for integral values); non-integral values get an
injective stand-in rendering, which preserves signature equality. -/
def pyFloatStr (q : ℚ) : List Char :=
  if q.den = 1 then
    (if q.num < 0 then '-' :: Nat.toDigits 10 q.num.natAbs
     else Nat.toDigits 10 q.num.natAbs) ++ ".0".toList
  else
    Nat.toDigits 10 q.num.natAbs ++ '/' :: Nat.toDigits 10 q.den

/-- Python `f"{x}"` on an optional string (`None` prints as `None`). -/
def optTextStr : Option (List Char) → List Char
  | none => "None".toList
  | some s => s

/-- Python `f"{x}"` on an optional float. -/
def optRatStr : Option ℚ → List Char
  | none => "None".toList
  | some q => pyFloatStr q

/-- The duplicate-detection signature
`f"{state['meter_tag']}_{state['reading_value']}_{state['date']}"`. -/
def sigOf (tag : Option (List Char)) (value : Option ℚ) (date : Option (List Char)) :
    List Char :=
  optTextStr tag ++ '_' :: optRatStr value ++ '_' :: optTextStr date

/-- `self.parsing_history` update: append, then truncate to the last 50
entries once the length exceeds 100. -/
def pushHistory (hist : List (List Char)) (sig : List Char) : List (List Char) :=
  let h2 := hist ++ [sig]
  if h2.length > 100 then h2.drop (h2.length - 50) else h2

/-- `WaterMeterAgent._act`.  `today` stands for `datetime.now()`; the
returned list is the updated `self.parsing_history`.  Fields that the think
order guarantees to be set are read with `getD` (Python would raise on
`None` there, but no reachable state does). -/
def wAct (today : Date) (st : AgentState) (hist : List (List Char)) :
    AgentAction → Except (List Char) (AgentState × List (List Char))
  | .CLEAN_TEXT => .ok ({st with cleaned := some (clean_text_tool st.raw)}, hist)
  | .IDENTIFY_METER =>
    let cl := st.cleaned.getD []
    let tag0 := fuzzy_match_tool cl meterTagKeys
    let tag := match tag0 with
      | none => fuzzy_match_tool cl nameToTagKeys
      | some t => some t
    match tag with
    | some t =>
      .ok ({st with meterTag := some t, confidence := st.confidence + mkRat 3 10}, hist)
    | none =>
      .ok ({st with
            meterTag := some "UNKNOWN".toList
            warnings := st.warnings ++ ["Could not identify meter tag".toList]}, hist)
  | .EXTRACT_READING =>
    let cl := st.cleaned.getD []
    match extract_numbers_tool cl with
    | [] =>
      .ok ({st with
            readingValue := some 0
            warnings := st.warnings ++ ["No numeric reading detected".toList]}, hist)
    | n :: ns =>
      let reading := if (n :: ns).length > 1 then pyMax n ns else n
      .ok ({st with
            readingValue := some reading
            confidence := st.confidence + mkRat 2 5}, hist)
  | .IDENTIFY_UNIT =>
    let cl := st.cleaned.getD []
    .ok ({st with
          unit := some (standardize_unit_tool cl)
          confidence := st.confidence + mkRat 1 5}, hist)
  | .PARSE_DATE =>
    match parse_date_tool (st.cleaned.getD []) today with
    | .error e => .error e
    | .ok d =>
      .ok ({st with date := some d, confidence := st.confidence + mkRat 1 10}, hist)
  | .VALIDATE =>
    let v := validate_range_tool (st.readingValue.getD 0) (st.unit.getD "None".toList)
    let st1 := if v.1 then st else {st with warnings := st.warnings ++ [v.2]}
    let sig := sigOf st.meterTag st.readingValue st.date
    if hist.contains sig then
      .ok ({st1 with warnings := st1.warnings ++ ["Potential duplicate reading".toList]}, hist)
    else
      .ok (st1, pushHistory hist sig)
  | .COMPLETE => .ok (st, hist)
  | .FAIL => .ok (st, hist)

/-- The ReAct loop of `WaterMeterAgent.parse_reading`: up to 8 steps; break
on `COMPLETE`, or on `FAIL` after appending its warning; otherwise act.  The
trace records every decided action. -/
def wRun (today : Date) :
    Nat → AgentState → List (List Char) → List AgentAction →
      Except (List Char) (AgentState × List (List Char) × List AgentAction)
  | 0, st, hist, trace => .ok (st, hist, trace)
  | n + 1, st, hist, trace =>
    match wThink st with
    | .COMPLETE => .ok (st, hist, trace ++ [AgentAction.COMPLETE])
    | .FAIL =>
      .ok ({st with warnings := st.warnings ++ ["Parsing failed - insufficient data".toList]},
        hist, trace ++ [AgentAction.FAIL])
    | a =>
      match wAct today st hist a with
      | .error e => .error e
      | .ok p => wRun today n p.1 p.2 (trace ++ [a])

/-- The structured result of `WaterMeterAgent._generate_result`. -/
structure ParseResult where
  success : Bool
  confidence : ℚ
  meterTag : Option (List Char)
  meterDescription : List Char
  value : Option ℚ
  unit : Option (List Char)
  date : Option (List Char)
  warnings : List (List Char)
  raw : List Char
deriving DecidableEq, Repr

/-- Python truthiness of `state['meter_tag']` (an optional string). -/
def pyTruthyOptText : Option (List Char) → Bool
  | none => false
  | some s => !s.isEmpty

/-- `round(confidence, 2)`.  Python rounds floats half-to-even; every value
this program accumulates is an exact multiple of `1/10`, on which any
two-decimal rounding is the identity, so round-half-up
(`floor(100q + 1/2) / 100`, computed on numerator and denominator) is
faithful. -/
def round2 (q : ℚ) : ℚ :=
  mkRat (Int.fdiv (200 * q.num + Int.ofNat q.den) (2 * Int.ofNat q.den)) 100

/-- The `success` expression of `_generate_result`:
`meter_tag and meter_tag != 'UNKNOWN' and reading_value is not None and
reading_value > 0` under Python truthiness. -/
def wSuccess (st : AgentState) : Bool :=
  pyTruthyOptText st.meterTag &&
    !(st.meterTag == some "UNKNOWN".toList) &&
    st.readingValue.isSome &&
    (match st.readingValue with
     | none => false
     | some v => decide (0 < v))

/-- `self.meter_tags.get(tag, 'Unknown Meter')`. -/
def wDescription (tag : Option (List Char)) : List Char :=
  match tag with
  | none => "Unknown Meter".toList
  | some t =>
    (((meterTagsTable.find? (fun e => e.1 == t)).map (fun e => e.2)).getD
      "Unknown Meter".toList)

/-- `WaterMeterAgent._generate_result`. -/
def wGenResult (st : AgentState) : ParseResult :=
  { success := wSuccess st
    confidence := round2 st.confidence
    meterTag := st.meterTag
    meterDescription := wDescription st.meterTag
    value := st.readingValue
    unit := st.unit
    date := st.date
    warnings := st.warnings
    raw := st.raw }

/-- `WaterMeterAgent.parse_reading`: run the loop (at most 8 steps) from a
fresh state, then assemble the result.  There is no exception handler here:
a `ValueError` escaping `parse_date_tool` propagates to the caller, which the
`Except.error` branch models.  Returns the result, the updated
`parsing_history`, and the decided-action trace. -/
def wParse (raw : List Char) (today : Date) (hist : List (List Char)) :
    Except (List Char) (ParseResult × List (List Char) × List AgentAction) :=
  match wRun today 8 { raw := raw } hist [] with
  | .error e => .error e
  | .ok p => .ok (wGenResult p.1, p.2.1, p.2.2)

example :
    (wParse "WM001 150 cubic meters 2025-01-15".toList ⟨2025, 6, 10⟩ []).map
        (fun p => (p.1.success, p.1.meterTag, p.1.value, p.1.unit, p.1.date, p.2.2))
      = Except.ok (true, some "WM001".toList, some 2025, some "cubic_meters".toList,
          some "2025-01-15".toList,
          [AgentAction.CLEAN_TEXT, AgentAction.IDENTIFY_METER, AgentAction.EXTRACT_READING,
           AgentAction.IDENTIFY_UNIT, AgentAction.PARSE_DATE, AgentAction.VALIDATE, AgentAction.VALIDATE,
           AgentAction.VALIDATE]) := by rfl

example :
    (wParse "WM001 150 cubic meters 2025-01-15".toList ⟨2025, 6, 10⟩ []).map
        (fun p => p.1.warnings.count "Potential duplicate reading".toList)
      = Except.ok 2 := by rfl

example :
    (wParse "Kitchen meter reading is 150.5 cubic meters".toList ⟨2025, 6, 10⟩ []).map
        (fun p => (p.1.success, p.1.meterTag, p.1.value, p.1.unit, p.1.meterDescription))
      = Except.ok (true, some "KITCHEN".toList, some (mkRat 301 2),
          some "cubic_meters".toList, "Unknown Meter".toList) := by rfl

example :
    (wParse "Main supply 500".toList ⟨2025, 6, 10⟩ []).map
        (fun p => (p.1.meterTag, p.1.unit))
      = Except.ok (some "MAIN".toList, some "liters".toList) := by rfl

example :
    (wParse "reading yesterday".toList ⟨2025, 3, 1⟩ [])
      = Except.error "day is out of range for month".toList := by rfl

example :
    (wParse "!!!".toList ⟨2025, 3, 1⟩ []).map
        (fun p => (p.1.success, p.1.meterTag, p.1.value, p.1.unit, p.1.date, p.1.warnings, p.2.2))
      = Except.ok (false, none, none, none, none, ["Parsing failed - insufficient data".toList],
          [AgentAction.CLEAN_TEXT, AgentAction.FAIL]) := by rfl

/-- Scan of `SequenceMatcher` scores over (key, result) pairs with strict
improvement and threshold `0.6`, as in `MeterIdentificationTool.run`
(the returned value is the pair's second component). -/
def fuzzyScanPairs (text : List Char) :
    List (List Char × List Char) → Option (List Char) → ℚ → Option (List Char)
  | [], best, _ => best
  | (name, res) :: rest, best, bestScore =>
    let s := matchScore name text
    if s > bestScore ∧ s ≥ mkRat 3 5 then fuzzyScanPairs text rest (some res) s
    else fuzzyScanPairs text rest best bestScore

/-- `MeterIdentificationTool.run` from `local_langchain_style_agent.py`:
direct tag substring, then fuzzy over tags, then alias substring (returning
the mapped canonical tag), then fuzzy over aliases (also returning the
mapped tag), else `UNKNOWN`. -/
def identifyMeterL (text : List Char) : List Char :=
  match meterTagKeys.find? (fun t => hasSub text t) with
  | some t => t
  | none =>
    match fuzzyScanPairs text (meterTagKeys.map (fun t => (t, t))) none 0 with
    | some t => t
    | none =>
      match nameToTagTable.find? (fun p => hasSub text p.1) with
      | some p => p.2
      | none =>
        match fuzzyScanPairs text nameToTagTable none 0 with
        | some t => t
        | none => "UNKNOWN".toList

example : identifyMeterL "KITCHEN METER READING IS 150.5 CUBIC METERS".toList
    = "WM001".toList := by rfl

/-- The state of `LocalLangChainStyleAgent.parse_reading`; `toolCalls`
records the tool names (the loop logic and the result fields the claims
inspect depend only on the names and their count). -/
structure LState where
  raw : List Char
  cleaned : Option (List Char) := none
  meterTag : Option (List Char) := none
  readingValue : Option ℚ := none
  unit : Option (List Char) := none
  date : Option (List Char) := none
  warnings : List (List Char) := []
  confidence : ℚ := 0
  toolCalls : List (List Char) := []
deriving DecidableEq, Repr

/-- `LocalLangChainStyleAgent._think`: as `WaterMeterAgent._think`, but with
a validate-only-once guard and a final `COMPLETE` branch. -/
def lThink (st : LState) : AgentAction :=
  match st.cleaned with
  | none => .CLEAN_TEXT
  | some cl =>
    match st.meterTag with
    | none => if (pyStrip cl).isEmpty then .FAIL else .IDENTIFY_METER
    | some _ =>
      match st.readingValue with
      | none => .EXTRACT_READING
      | some _ =>
        match st.unit with
        | none => .IDENTIFY_UNIT
        | some _ =>
          match st.date with
          | none => .PARSE_DATE
          | some _ =>
            if st.toolCalls.any (fun n => hasSub n "validate_range".toList) then .COMPLETE
            else .VALIDATE

/-- `LocalLangChainStyleAgent._act`. -/
def lAct (today : Date) (st : LState) :
    AgentAction → Except (List Char) LState
  | .CLEAN_TEXT =>
    .ok {st with
         cleaned := some (clean_text_tool st.raw)
         toolCalls := st.toolCalls ++ ["clean_text".toList]}
  | .IDENTIFY_METER =>
    let cl := st.cleaned.getD []
    let t := identifyMeterL cl
    if t ≠ "UNKNOWN".toList then
      .ok {st with
           meterTag := some t
           confidence := st.confidence + mkRat 3 10
           toolCalls := st.toolCalls ++ ["identify_meter".toList]}
    else
      .ok {st with
           meterTag := some t
           warnings := st.warnings ++ ["Could not identify meter tag".toList]
           toolCalls := st.toolCalls ++ ["identify_meter".toList]}
  | .EXTRACT_READING =>
    let cl := st.cleaned.getD []
    match extract_numbers_tool cl with
    | [] =>
      .ok {st with
           readingValue := some 0
           warnings := st.warnings ++ ["No numeric reading detected".toList]
           toolCalls := st.toolCalls ++ ["extract_numbers".toList]}
    | n :: ns =>
      let reading := if (n :: ns).length > 1 then pyMax n ns else n
      .ok {st with
           readingValue := some reading
           confidence := st.confidence + mkRat 2 5
           toolCalls := st.toolCalls ++ ["extract_numbers".toList]}
  | .IDENTIFY_UNIT =>
    let cl := st.cleaned.getD []
    .ok {st with
         unit := some (standardize_unit_tool cl)
         confidence := st.confidence + mkRat 1 5
         toolCalls := st.toolCalls ++ ["standardize_unit".toList]}
  | .PARSE_DATE =>
    match parse_date_tool (st.cleaned.getD []) today with
    | .error e => .error e
    | .ok d =>
      .ok {st with
           date := some d
           confidence := st.confidence + mkRat 1 10
           toolCalls := st.toolCalls ++ ["parse_date".toList]}
  | .VALIDATE =>
    let v := validate_range_tool (st.readingValue.getD 0) (st.unit.getD "None".toList)
    let st1 := if v.1 then st else {st with warnings := st.warnings ++ [v.2]}
    .ok {st1 with toolCalls := st1.toolCalls ++ ["validate_range".toList]}
  | .COMPLETE => .ok st
  | .FAIL => .ok st

/-- The local ReAct loop (`_execute_react_loop`): at most 8 steps, break on
`COMPLETE`, or on `FAIL` after appending its warning. -/
def lRun (today : Date) :
    Nat → LState → List AgentAction → Except (List Char) (LState × List AgentAction)
  | 0, st, trace => .ok (st, trace)
  | n + 1, st, trace =>
    match lThink st with
    | .COMPLETE => .ok (st, trace ++ [AgentAction.COMPLETE])
    | .FAIL =>
      .ok ({st with warnings := st.warnings ++ ["Parsing failed - insufficient data".toList]},
        trace ++ [AgentAction.FAIL])
    | a =>
      match lAct today st a with
      | .error e => .error e
      | .ok st2 => lRun today n st2 (trace ++ [a])

/-- The result dict built by `LocalLangChainStyleAgent._generate_result`. -/
structure LResult where
  success : Bool
  confidence : ℚ
  meterTag : Option (List Char)
  meterDescription : List Char
  value : Option ℚ
  unit : Option (List Char)
  date : Option (List Char)
  warnings : List (List Char)
  raw : List Char
  toolCallCount : Nat
deriving DecidableEq, Repr

/-- `LocalLangChainStyleAgent._generate_result` (same `success` expression
as the water agent). -/
def lGenResult (st : LState) : LResult :=
  { success :=
      pyTruthyOptText st.meterTag &&
        !(st.meterTag == some "UNKNOWN".toList) &&
        st.readingValue.isSome &&
        (match st.readingValue with
         | none => false
         | some v => decide (0 < v))
    confidence := round2 st.confidence
    meterTag := st.meterTag
    meterDescription := wDescription st.meterTag
    value := st.readingValue
    unit := st.unit
    date := st.date
    warnings := st.warnings
    raw := st.raw
    toolCallCount := st.toolCalls.length }

/-- `LocalLangChainStyleAgent._check_duplicates`: runs once, after result
generation, only on success; appends the duplicate warning or inserts the
signature. -/
def lCheckDup (r : LResult) (hist : List (List Char)) : LResult × List (List Char) :=
  if r.success then
    let sig := sigOf r.meterTag r.value r.date
    if hist.contains sig then
      ({r with warnings := r.warnings ++ ["Potential duplicate reading".toList]}, hist)
    else
      (r, pushHistory hist sig)
  else (r, hist)

/-- The body of the `try` block of `LocalLangChainStyleAgent.parse_reading`:
loop, result generation, duplicate check. -/
def lPipeline (raw : List Char) (today : Date) (hist : List (List Char)) :
    Except (List Char) (LResult × List (List Char)) :=
  match lRun today 8 { raw := raw } [] with
  | .error e => .error e
  | .ok p => .ok (lCheckDup (lGenResult p.1) hist)

/-- The two shapes `LocalLangChainStyleAgent.parse_reading` can return: the
normal result dict, or the error dict
`{'success': False, 'error': str(e), 'raw_input': raw_input, ...}`
built by the `except` branch (no meter/reading data). -/
inductive LOutcome where
  | result (r : LResult)
  | failure (success : Bool) (error : List Char) (raw : List Char)
deriving DecidableEq, Repr

/-- `LocalLangChainStyleAgent.parse_reading`: the whole pipeline runs inside
`try`; any exception is caught and turned into the error dict, leaving
`parsing_history` untouched. -/
def lParse (raw : List Char) (today : Date) (hist : List (List Char)) :
    LOutcome × List (List Char) :=
  match lPipeline raw today hist with
  | .ok (r, h) => (.result r, h)
  | .error e => (.failure false e raw, hist)

/-- The normal-result projection of an `LOutcome`. -/
def lResultOf (o : LOutcome) : Option LResult :=
  match o with
  | .result r => some r
  | .failure _ _ _ => none

/-- Field projection for stating concrete local-agent runs. -/
def lOutcomeFields (o : LOutcome) :
    Option (Bool × Option (List Char) × Option ℚ × Option (List Char) × Option (List Char)) :=
  match o with
  | .result r => some (r.success, r.meterTag, r.value, r.unit, r.date)
  | .failure _ _ _ => none

example :
    lOutcomeFields (lParse "Kitchen meter reading is 150.5 cubic meters".toList ⟨2025, 6, 10⟩ []).1
      = some (true, some "WM001".toList, some (mkRat 301 2), some "cubic_meters".toList,
          some "2025-06-10".toList) := by rfl

example :
    (lParse "reading yesterday".toList ⟨2025, 3, 1⟩ []).1
      = LOutcome.failure false "day is out of range for month".toList
          "reading yesterday".toList := by rfl

/-- C1: the claim says `IDENTIFY_METER` maps a matched alias to its canonical
tag, so that `parse_reading("Kitchen meter reading is 150.5 cubic meters")`
stores `meter.tag = "WM001"`.  `WaterMeterAgent._act` instead stores the
alias key returned by `fuzzy_match_tool` itself: the parse succeeds with
`meter.tag = "KITCHEN"` (whose description lookup then falls back to
`Unknown Meter`), while the sibling `MeterIdentificationTool.run` (the
intended behaviour) maps the same alias to `WM001`. -/
theorem c1_water_agent_stores_alias_not_canonical_tag :
    (wParse "Kitchen meter reading is 150.5 cubic meters".toList ⟨2025, 6, 10⟩ []).map
        (fun p => (p.1.success, p.1.meterTag, p.1.value, p.1.unit, p.1.meterDescription))
      = Except.ok (true, some "KITCHEN".toList, some (mkRat 301 2),
          some "cubic_meters".toList, "Unknown Meter".toList) ∧
    some "KITCHEN".toList ≠ some "WM001".toList ∧
    lOutcomeFields (lParse "Kitchen meter reading is 150.5 cubic meters".toList
        ⟨2025, 6, 10⟩ []).1
      = some (true, some "WM001".toList, some (mkRat 301 2), some "cubic_meters".toList,
          some "2025-06-10".toList) := by
  refine ⟨by rfl, by decide, by rfl⟩

/-- C2: the claim says each pipeline action is selected at most once and the
loop halts the first time `COMPLETE` or `FAIL` is chosen.
`WaterMeterAgent._think` has no `COMPLETE` branch, so on any input that
reaches validation the loop runs all 8 steps and selects `VALIDATE` three
times (steps 6, 7, 8); the sibling local agent shows the claimed trace. -/
theorem c2_water_agent_runs_validate_three_times :
    (wParse "WM001 150 cubic meters 2025-01-15".toList ⟨2025, 6, 10⟩ []).map
        (fun p => p.2.2)
      = Except.ok
          [AgentAction.CLEAN_TEXT, AgentAction.IDENTIFY_METER, AgentAction.EXTRACT_READING,
           AgentAction.IDENTIFY_UNIT, AgentAction.PARSE_DATE, AgentAction.VALIDATE,
           AgentAction.VALIDATE, AgentAction.VALIDATE] := by
  rfl

/-- C3: the claim says parsing `"WM001 150 cubic meters 2025-01-15"` twice
yields the duplicate warning in the second call's result only, duplicate
detection running once per parse outside the step loop.  In
`WaterMeterAgent` the duplicate check sits inside the `VALIDATE` action,
which (lacking a `COMPLETE` state) re-runs at steps 7 and 8: the first
call's own result already carries the warning twice.  The
`LocalLangChainStyleAgent`, whose `_check_duplicates` runs once after the
loop, behaves exactly as claimed: no warning on the first call, exactly one
on the second. -/
theorem c3_water_agent_first_call_already_warns_duplicate :
    (wParse "WM001 150 cubic meters 2025-01-15".toList ⟨2025, 6, 10⟩ []).map
        (fun p => p.1.warnings.count "Potential duplicate reading".toList)
      = Except.ok 2 ∧
    (lResultOf (lParse "WM001 150 cubic meters 2025-01-15".toList ⟨2025, 6, 10⟩ []).1).map
        (fun r => r.warnings.count "Potential duplicate reading".toList)
      = some 0 ∧
    (lResultOf (lParse "WM001 150 cubic meters 2025-01-15".toList ⟨2025, 6, 10⟩
          (lParse "WM001 150 cubic meters 2025-01-15".toList ⟨2025, 6, 10⟩ []).2).1).map
        (fun r => r.warnings.count "Potential duplicate reading".toList)
      = some 1 := by
  refine ⟨by rfl, by rfl, by rfl⟩

/-- C6: the claim says `PARSE_DATE` on a `YESTERDAY` input returns the
current date minus one calendar day, rolling over month boundaries (on the
1st, the last day of the previous month).  `parse_date_tool` instead
computes `datetime.now().replace(day=datetime.now().day - 1)`: on
2025-03-01 that is `replace(day=0)`, which raises
`ValueError: day is out of range for month` — not 2025-02-28.  Mid-month the
naive decrement works (2025-03-15 gives 2025-03-14). -/
theorem c6_parse_date_yesterday_fails_at_month_start :
    clean_text_tool "reading yesterday".toList = "READING YESTERDAY".toList ∧
    parse_date_tool "READING YESTERDAY".toList ⟨2025, 3, 1⟩
      = Except.error "day is out of range for month".toList ∧
    parse_date_tool "READING YESTERDAY".toList ⟨2025, 3, 15⟩
      = Except.ok "2025-03-14".toList := by
  refine ⟨by decide, by rfl, by rfl⟩

/-- C4 counterexample: `WaterMeterAgent.parse_reading` has no top-level
exception handler, and on `"reading yesterday"` processed on the 1st of a
month the `ValueError` raised inside `parse_date_tool` propagates to the
caller instead of being returned as a `success=false` result. -/
theorem c4_water_parse_propagates_value_error :
    wParse "reading yesterday".toList ⟨2025, 3, 1⟩ []
      = Except.error "day is out of range for month".toList := by
  rfl

/-- C4 (amended): only `LocalLangChainStyleAgent.parse_reading` wraps the
pipeline in `try/except`: whenever the pipeline raises, it returns the error
dict — `success=false`, the fault description, the raw input, and no partial
data — and leaves `parsing_history` untouched. -/
theorem c4_local_parse_catches_pipeline_fault (raw : List Char) (today : Date)
    (hist : List (List Char)) (e : List Char)
    (h : lPipeline raw today hist = Except.error e) :
    lParse raw today hist = (LOutcome.failure false e raw, hist) := by
  unfold lParse
  rw [h]

theorem c4_local_parse_catches_pipeline_fault_witness :
    lPipeline "reading yesterday".toList ⟨2025, 3, 1⟩ []
      = Except.error "day is out of range for month".toList ∧
    lParse "reading yesterday".toList ⟨2025, 3, 1⟩ []
      = (LOutcome.failure false "day is out of range for month".toList
          "reading yesterday".toList, []) :=
  ⟨by rfl, c4_local_parse_catches_pipeline_fault _ _ _ _ (by rfl)⟩

theorem pyMax_mem (n : ℚ) (ns : List ℚ) : pyMax n ns ∈ n :: ns := by
  induction ns generalizing n with
  | nil => simp [pyMax]
  | cons b bs ih =>
    have e : pyMax n (b :: bs) = pyMax (if n < b then b else n) bs := rfl
    rw [e]
    by_cases hnb : n < b
    · rw [if_pos hnb]
      exact List.mem_cons_of_mem n (ih b)
    · rw [if_neg hnb]
      rcases List.mem_cons.mp (ih n) with h | h
      · rw [h]; exact List.mem_cons_self n _
      · exact List.mem_cons_of_mem n (List.mem_cons_of_mem b h)

theorem le_pyMax (n : ℚ) (ns : List ℚ) : ∀ x ∈ n :: ns, x ≤ pyMax n ns := by
  induction ns generalizing n with
  | nil => simp [pyMax]
  | cons b bs ih =>
    intro x hx
    have e : pyMax n (b :: bs) = pyMax (if n < b then b else n) bs := rfl
    rw [e]
    have hn : n ≤ pyMax (if n < b then b else n) bs := by
      have h1 := ih (if n < b then b else n) (if n < b then b else n) (by simp)
      have h2 : n ≤ (if n < b then b else n) := by split <;> [exact le_of_lt (by assumption); exact le_refl n]
      exact le_trans h2 h1
    have hb : b ≤ pyMax (if n < b then b else n) bs := by
      have h1 := ih (if n < b then b else n) (if n < b then b else n) (by simp)
      have h2 : b ≤ (if n < b then b else n) := by
        split
        · exact le_refl b
        · exact le_of_not_lt (by assumption)
      exact le_trans h2 h1
    rcases List.mem_cons.mp hx with rfl | hx2
    · exact hn
    rcases List.mem_cons.mp hx2 with rfl | hx3
    · exact hb
    · exact ih (if n < b then b else n) x (List.mem_cons_of_mem _ hx3)

/-- C9: `EXTRACT_READING` stores the maximum over all maximal digit runs of
the cleaned text — including the digits of the meter tag and of a literal
date.  Concretely: cleaning `"WM001 150 cubic meters 2025-01-15"` leaves the
runs `001`, `150`, `2025`, `01`, `15`; for any state whose cleaned text has a
nonempty number list the stored reading is `max(numbers)` (which is both a
member of and an upper bound of the list); and the end-to-end parse of that
input stores `2025.0`, not `150.0`. -/
theorem c9_extract_reading_takes_max_digit_run :
    extract_numbers_tool (clean_text_tool "WM001 150 cubic meters 2025-01-15".toList)
      = [1, 150, 2025, 1, 15] ∧
    (∀ (today : Date) (st : AgentState) (hist : List (List Char)) (n : ℚ) (ns : List ℚ),
      extract_numbers_tool (st.cleaned.getD []) = n :: ns →
      wAct today st hist AgentAction.EXTRACT_READING
        = Except.ok ({st with
            readingValue := some (pyMax n ns)
            confidence := st.confidence + mkRat 2 5}, hist)) ∧
    (∀ (n : ℚ) (ns : List ℚ), pyMax n ns ∈ n :: ns ∧ ∀ x ∈ n :: ns, x ≤ pyMax n ns) ∧
    (wParse "WM001 150 cubic meters 2025-01-15".toList ⟨2025, 6, 10⟩ []).map
        (fun p => p.1.value)
      = Except.ok (some 2025) ∧
    (2025 : ℚ) ≠ 150 := by
  refine ⟨by rfl, ?_, fun n ns => ⟨pyMax_mem n ns, le_pyMax n ns⟩, by rfl, by norm_num⟩
  intro today st hist n ns h
  simp only [wAct]
  rw [h]
  cases ns with
  | nil => simp [pyMax]
  | cons b bs => simp

theorem c9_extract_reading_takes_max_digit_run_witness :
    extract_numbers_tool ((some "A 3 5".toList : Option (List Char)).getD [])
      = [3, 5] ∧
    wAct ⟨2025, 6, 10⟩ { raw := "A 3 5".toList, cleaned := some "A 3 5".toList } []
        AgentAction.EXTRACT_READING
      = Except.ok ({ raw := "A 3 5".toList
                     cleaned := some "A 3 5".toList
                     readingValue := some (pyMax 3 [5])
                     confidence := 0 + mkRat 2 5 }, []) :=
  ⟨by rfl, c9_extract_reading_takes_max_digit_run.2.1 ⟨2025, 6, 10⟩
    { raw := "A 3 5".toList, cleaned := some "A 3 5".toList } [] 3 [5] (by rfl)⟩

theorem startsWithL_of_append (t p q : List Char)
    (h : startsWithL t (p ++ q) = true) : startsWithL t p = true := by
  induction p generalizing t with
  | nil => cases t <;> rfl
  | cons a as ih =>
    cases t with
    | nil => simp [startsWithL] at h
    | cons c cs =>
      simp only [List.cons_append, startsWithL, Bool.and_eq_true] at h ⊢
      exact ⟨h.1, ih cs h.2⟩

theorem hasSub_of_hasSub_append (t p q : List Char)
    (h : hasSub t (p ++ q) = true) : hasSub t p = true := by
  induction t with
  | nil =>
    simp only [hasSub, List.isEmpty_iff, List.append_eq_nil] at h ⊢
    exact h.1
  | cons c cs ih =>
    simp only [hasSub, Bool.or_eq_true] at h ⊢
    rcases h with h | h
    · exact Or.inl (startsWithL_of_append _ _ _ h)
    · exact Or.inr (ih h)

/-- C10: `standardize_unit_tool` tests `'L' in text` before the longer
liter variants and after the cubic-meter and gallon variants, so any cleaned
text containing the letter `L` anywhere — even inside `SUPPLY` — while
containing none of `CU M`, `CUBIC M`, `M3`, `CUBIC METER`, `CUBIC METERS`,
`GAL` is assigned `liters`; in particular the parse of `"Main supply 500"`
stores unit `liters`. -/
theorem c10_lone_letter_l_yields_liters (s : List Char)
    (hL : hasSub s "L".toList = true)
    (h1 : hasSub s "CU M".toList = false)
    (h2 : hasSub s "CUBIC M".toList = false)
    (h3 : hasSub s "M3".toList = false)
    (h4 : hasSub s "CUBIC METER".toList = false)
    (h5 : hasSub s "CUBIC METERS".toList = false)
    (h6 : hasSub s "GAL".toList = false) :
    standardize_unit_tool s = "liters".toList ∧
    (wParse "Main supply 500".toList ⟨2025, 6, 10⟩ []).map (fun p => p.1.unit)
      = Except.ok (some "liters".toList) := by
  have h7 : hasSub s "GALLON".toList = false := by
    by_contra hc
    rw [Bool.not_eq_false] at hc
    have : ("GALLON".toList : List Char) = "GAL".toList ++ "LON".toList := by decide
    rw [this] at hc
    rw [hasSub_of_hasSub_append _ _ _ hc] at h6
    exact Bool.true_eq_false.mp h6
  have h8 : hasSub s "GALLONS".toList = false := by
    by_contra hc
    rw [Bool.not_eq_false] at hc
    have : ("GALLONS".toList : List Char) = "GAL".toList ++ "LONS".toList := by decide
    rw [this] at hc
    rw [hasSub_of_hasSub_append _ _ _ hc] at h6
    exact Bool.true_eq_false.mp h6
  refine ⟨?_, by rfl⟩
  simp only [standardize_unit_tool, unitMap, firstVariant, h1, h2, h3, h4, h5, h6, h7, h8,
    hL, if_false, if_true, Bool.false_eq_true]
  rfl

theorem c10_lone_letter_l_yields_liters_witness :
    standardize_unit_tool "MAIN SUPPLY 500".toList = "liters".toList ∧
    (wParse "Main supply 500".toList ⟨2025, 6, 10⟩ []).map (fun p => p.1.unit)
      = Except.ok (some "liters".toList) :=
  c10_lone_letter_l_yields_liters "MAIN SUPPLY 500".toList (by decide) (by decide)
    (by decide) (by decide) (by decide) (by decide) (by decide)

theorem round2_zero : round2 0 = 0 := by decide

/-- C5: whenever the cleaned text is empty or whitespace-only
(`not cleaned_text.strip()`), the think phase returns `FAIL` at step 2: the
parse stops after `CLEAN_TEXT`, appends exactly the one warning
`'Parsing failed - insufficient data'`, and leaves meter tag, reading value,
unit and date `None`; `success` is falsy. -/
theorem c5_empty_cleaned_text_short_circuits (raw : List Char) (today : Date)
    (hist : List (List Char))
    (h : (pyStrip (clean_text_tool raw)).isEmpty = true) :
    wParse raw today hist = Except.ok
      ({ success := false
         confidence := 0
         meterTag := none
         meterDescription := "Unknown Meter".toList
         value := none
         unit := none
         date := none
         warnings := ["Parsing failed - insufficient data".toList]
         raw := raw }, hist, [AgentAction.CLEAN_TEXT, AgentAction.FAIL]) := by
  have hrun : wRun today 8 { raw := raw } hist []
      = Except.ok ({ raw := raw
                     cleaned := some (clean_text_tool raw)
                     warnings := ["Parsing failed - insufficient data".toList] }, hist,
          [AgentAction.CLEAN_TEXT, AgentAction.FAIL]) := by
    show wRun today (7 + 1) { raw := raw } hist [] = _
    rw [wRun]
    simp only [wThink, wAct]
    show wRun today (6 + 1) _ hist [AgentAction.CLEAN_TEXT] = _
    rw [wRun]
    simp only [wThink, h, if_true]
    rfl
  unfold wParse
  rw [hrun]
  simp only [wGenResult, wSuccess, pyTruthyOptText, wDescription, round2_zero]
  rfl

theorem c5_empty_cleaned_text_short_circuits_witness :
    (pyStrip (clean_text_tool "?!".toList)).isEmpty = true ∧
    wParse "?!".toList ⟨2025, 6, 10⟩ [] = Except.ok
      ({ success := false
         confidence := 0
         meterTag := none
         meterDescription := "Unknown Meter".toList
         value := none
         unit := none
         date := none
         warnings := ["Parsing failed - insufficient data".toList]
         raw := "?!".toList }, [], [AgentAction.CLEAN_TEXT, AgentAction.FAIL]) :=
  ⟨by decide, c5_empty_cleaned_text_short_circuits "?!".toList ⟨2025, 6, 10⟩ [] (by decide)⟩

/-- Resolved-tag sanity: the meter tag field is unset or a nonempty string
(the catalog keys and the `UNKNOWN` marker are all nonempty). -/
def tagOk (t : Option (List Char)) : Prop :=
  t = none ∨ ∃ s, t = some s ∧ s ≠ []

theorem fuzzyGo_mem (text : List Char) (thr : ℚ) (keys : List (List Char))
    (best : Option (List Char)) (sc : ℚ) :
    fuzzyGo text thr keys best sc = best ∨
      ∃ k ∈ keys, fuzzyGo text thr keys best sc = some k := by
  induction keys generalizing best sc with
  | nil => exact Or.inl rfl
  | cons k ks ih =>
    simp only [fuzzyGo]
    split
    · exact Or.inr ⟨k, List.mem_cons_self _ _, rfl⟩
    split
    · rcases ih (some k) (matchScore k text) with h | ⟨k2, hk2, h⟩
      · exact Or.inr ⟨k, List.mem_cons_self _ _, h⟩
      · exact Or.inr ⟨k2, List.mem_cons_of_mem _ hk2, h⟩
    · rcases ih best sc with h | ⟨k2, hk2, h⟩
      · exact Or.inl h
      · exact Or.inr ⟨k2, List.mem_cons_of_mem _ hk2, h⟩

theorem fuzzy_match_tool_mem (text : List Char) (keys : List (List Char)) :
    fuzzy_match_tool text keys = none ∨
      ∃ k ∈ keys, fuzzy_match_tool text keys = some k :=
  fuzzyGo_mem text (mkRat 3 5) keys none 0

theorem meterTagKeys_ne_nil : ∀ k ∈ meterTagKeys, k ≠ [] := by decide

theorem nameToTagKeys_ne_nil : ∀ k ∈ nameToTagKeys, k ≠ [] := by decide

theorem wAct_tagOk (today : Date) (st : AgentState) (hist : List (List Char))
    (a : AgentAction) (st' : AgentState) (hist' : List (List Char))
    (h : tagOk st.meterTag) (he : wAct today st hist a = Except.ok (st', hist')) :
    tagOk st'.meterTag := by
  cases a <;> simp only [wAct] at he
  case CLEAN_TEXT => cases he; exact h
  case IDENTIFY_METER =>
    split at he
    next t heq =>
      cases he
      rcases hf1 : fuzzy_match_tool (st.cleaned.getD []) meterTagKeys with - | t1
      · rw [hf1] at heq
        rcases fuzzy_match_tool_mem (st.cleaned.getD []) nameToTagKeys with h2 | ⟨k, hk, h2⟩
        · rw [h2] at heq; cases heq
        · rw [h2] at heq
          cases heq
          exact Or.inr ⟨_, rfl, nameToTagKeys_ne_nil _ hk⟩
      · rw [hf1] at heq
        cases heq
        rcases fuzzy_match_tool_mem (st.cleaned.getD []) meterTagKeys with h2 | ⟨k, hk, h2⟩
        · rw [h2] at hf1; cases hf1
        · rw [h2] at hf1
          cases hf1
          exact Or.inr ⟨_, rfl, meterTagKeys_ne_nil _ hk⟩
    next heq =>
      cases he
      exact Or.inr ⟨"UNKNOWN".toList, rfl, by decide⟩
  case EXTRACT_READING =>
    split at he <;> (cases he; exact h)
  case IDENTIFY_UNIT => cases he; exact h
  case PARSE_DATE =>
    split at he
    · cases he
    · cases he; exact h
  case VALIDATE =>
    split at he <;> (cases he; split <;> exact h)
  case COMPLETE => cases he; exact h
  case FAIL => cases he; exact h

theorem wRun_tagOk (today : Date) :
    ∀ (n : Nat) (st : AgentState) (hist : List (List Char)) (trace : List AgentAction)
      (r : AgentState × List (List Char) × List AgentAction),
      tagOk st.meterTag → wRun today n st hist trace = Except.ok r →
      tagOk r.1.meterTag := by
  intro n
  induction n with
  | zero =>
    intro st hist trace r h he
    simp only [wRun] at he
    cases he
    exact h
  | succ n ih =>
    intro st hist trace r h he
    simp only [wRun] at he
    split at he
    · cases he; exact h
    · cases he; exact h
    next a h1 h2 =>
      split at he
      · cases he
      next p hp =>
        exact ih p.1 p.2 _ r (wAct_tagOk today st hist _ p.1 p.2 h hp) he

theorem wSuccess_iff (st : AgentState) (h : tagOk st.meterTag) :
    wSuccess st = true ↔
      (st.meterTag ≠ none ∧ st.meterTag ≠ some "UNKNOWN".toList ∧
        ∃ v, st.readingValue = some v ∧ 0 < v) := by
  rcases hs : st.meterTag with - | s
  · simp [wSuccess, pyTruthyOptText, hs]
  · have hsne : s ≠ [] := by
      rcases h with h2 | ⟨s2, hs2, hne⟩
      · rw [hs] at h2; cases h2
      · rw [hs] at hs2; cases hs2; exact hne
    rcases hv : st.readingValue with - | v
    · simp [wSuccess, pyTruthyOptText, hs, hv]
    · constructor
      · intro htrue
        simp only [wSuccess, pyTruthyOptText, hs, hv, Bool.and_eq_true,
          decide_eq_true_eq] at htrue
        obtain ⟨⟨⟨hA, hB⟩, -⟩, hpos⟩ := htrue
        refine ⟨by simp, ?_, v, rfl, hpos⟩
        intro hcon
        rw [hcon] at hB
        simp at hB
      · rintro ⟨-, hne, w, hw, hpos⟩
        injection hw with hw2
        subst hw2
        simp only [wSuccess, pyTruthyOptText, hs, hv, Bool.and_eq_true, decide_eq_true_eq]
        refine ⟨⟨⟨?_, ?_⟩, rfl⟩, hpos⟩
        · simp [hsne]
        · simp only [ne_eq, Option.some.injEq] at hne
          simpa using hne

/-- C8: for every parse result the water agent can produce, `success` is
true exactly when the resolved meter tag is set, is not the `UNKNOWN`
marker, and the reading value is strictly positive.  (The Python expression
also requires the tag to be a truthy — nonempty — string, but every tag the
pipeline can store is nonempty, by the `tagOk` invariant.) -/
theorem c8_success_iff_known_tag_and_positive_value (raw : List Char) (today : Date)
    (hist : List (List Char)) (r : ParseResult) (h2 : List (List Char))
    (tr : List AgentAction)
    (h : wParse raw today hist = Except.ok (r, h2, tr)) :
    r.success = true ↔
      (r.meterTag ≠ none ∧ r.meterTag ≠ some "UNKNOWN".toList ∧
        ∃ v, r.value = some v ∧ 0 < v) := by
  unfold wParse at h
  split at h
  · cases h
  next p hp =>
    cases h
    have htag := wRun_tagOk today 8 { raw := raw } hist [] p (Or.inl rfl) hp
    simpa [wGenResult] using wSuccess_iff p.1 htag

/-- Result component of a water parse, with an inert fallback for the
propagated-exception case. -/
def wResultD (raw : List Char) (today : Date) (hist : List (List Char)) : ParseResult :=
  match wParse raw today hist with
  | .ok p => p.1
  | .error _ =>
    { success := false
      confidence := 0
      meterTag := none
      meterDescription := []
      value := none
      unit := none
      date := none
      warnings := []
      raw := [] }

/-- History component of a water parse (fallback: the input history). -/
def wHistD (raw : List Char) (today : Date) (hist : List (List Char)) : List (List Char) :=
  match wParse raw today hist with
  | .ok p => p.2.1
  | .error _ => hist

/-- Trace component of a water parse (fallback: empty). -/
def wTraceD (raw : List Char) (today : Date) (hist : List (List Char)) : List AgentAction :=
  match wParse raw today hist with
  | .ok p => p.2.2
  | .error _ => []

theorem c8_success_iff_known_tag_and_positive_value_witness :
    (wResultD "WM001 150 cubic meters 2025-01-15".toList ⟨2025, 6, 10⟩ []).success = true ↔
      ((wResultD "WM001 150 cubic meters 2025-01-15".toList ⟨2025, 6, 10⟩ []).meterTag ≠ none ∧
        (wResultD "WM001 150 cubic meters 2025-01-15".toList ⟨2025, 6, 10⟩ []).meterTag
          ≠ some "UNKNOWN".toList ∧
        ∃ v, (wResultD "WM001 150 cubic meters 2025-01-15".toList ⟨2025, 6, 10⟩ []).value
            = some v ∧ 0 < v) :=
  c8_success_iff_known_tag_and_positive_value
    "WM001 150 cubic meters 2025-01-15".toList ⟨2025, 6, 10⟩ [] _ _ _ (by rfl)

theorem toUpper_eq (c : Char) : Char.toUpper c
    = if c.toNat ≥ 97 ∧ c.toNat ≤ 122 then Char.ofNat (c.toNat - 32) else c := rfl

theorem toNat_ofNat_of_lt {n : Nat} (h : n < 55296) : (Char.ofNat n).toNat = n := by
  unfold Char.ofNat
  rw [dif_pos (Or.inl h)]
  rfl

theorem toUpper_toNat (c : Char) :
    (Char.toUpper c).toNat
      = if c.toNat ≥ 97 ∧ c.toNat ≤ 122 then c.toNat - 32 else c.toNat := by
  rw [toUpper_eq]
  by_cases h : c.toNat ≥ 97 ∧ c.toNat ≤ 122
  · rw [if_pos h, if_pos h]
    exact toNat_ofNat_of_lt (by omega)
  · rw [if_neg h, if_neg h]

theorem pyIsSpace_toUpper (c : Char) : pyIsSpace (Char.toUpper c) = pyIsSpace c := by
  by_cases h : c.toNat ≥ 97 ∧ c.toNat ≤ 122
  · have e := toUpper_toNat c
    rw [if_pos h] at e
    rw [Bool.eq_iff_iff]
    simp only [pyIsSpace, e, Bool.or_eq_true, decide_eq_true_eq]
    omega
  · have e := toUpper_toNat c
    rw [if_neg h] at e
    simp only [pyIsSpace, e]

theorem keepChar_toUpper (c : Char) : keepChar (Char.toUpper c) = keepChar c := by
  by_cases h : c.toNat ≥ 97 ∧ c.toNat ≤ 122
  · have e := toUpper_toNat c
    rw [if_pos h] at e
    rw [Bool.eq_iff_iff]
    simp only [keepChar, pyIsWord, pyIsSpace, e, Bool.or_eq_true, Bool.and_eq_true,
      decide_eq_true_eq]
    omega
  · have e := toUpper_toNat c
    rw [if_neg h] at e
    simp only [keepChar, pyIsWord, pyIsSpace, e]

theorem toUpper_toUpper (c : Char) : Char.toUpper (Char.toUpper c) = Char.toUpper c := by
  by_cases h : c.toNat ≥ 97 ∧ c.toNat ≤ 122
  · have e := toUpper_toNat c
    rw [if_pos h] at e
    rw [toUpper_eq (Char.toUpper c), if_neg (by omega)]
  · rw [toUpper_eq c, if_neg h, toUpper_eq c, if_neg h]

theorem toUpper_space : Char.toUpper ' ' = ' ' := rfl

theorem dropWhile_map_toUpper (l : List Char) :
    (l.map Char.toUpper).dropWhile pyIsSpace
      = (l.dropWhile pyIsSpace).map Char.toUpper := by
  induction l with
  | nil => rfl
  | cons c cs ih =>
    simp only [List.map_cons, List.dropWhile_cons, pyIsSpace_toUpper]
    split
    · exact ih
    · rfl

theorem pyStrip_map_toUpper (l : List Char) :
    pyStrip (l.map Char.toUpper) = (pyStrip l).map Char.toUpper := by
  unfold pyStrip
  rw [dropWhile_map_toUpper, ← List.map_reverse, dropWhile_map_toUpper, ← List.map_reverse]

theorem collapseWs_map_toUpper (l : List Char) :
    collapseWs (l.map Char.toUpper) = (collapseWs l).map Char.toUpper := by
  induction l with
  | nil => rfl
  | cons c rest ih =>
    cases rest with
    | nil =>
      simp only [List.map_cons, List.map_nil, collapseWs, pyIsSpace_toUpper]
      split <;> rfl
    | cons d rest2 =>
      have ih2 : collapseWs (Char.toUpper d :: List.map Char.toUpper rest2)
          = List.map Char.toUpper (collapseWs (d :: rest2)) := by
        simpa using ih
      cases hc : pyIsSpace c <;> cases hd : pyIsSpace d <;>
        simp only [List.map_cons, collapseWs, pyIsSpace_toUpper, hc, hd, if_true, if_false,
          Bool.false_eq_true, ih2, toUpper_space]

theorem replaceSpecial_map_toUpper (l : List Char) :
    replaceSpecial (l.map Char.toUpper) = (replaceSpecial l).map Char.toUpper := by
  unfold replaceSpecial
  rw [List.map_map, List.map_map]
  apply List.map_congr_left
  intro c _
  simp only [Function.comp_apply, keepChar_toUpper]
  split
  · rfl
  · exact toUpper_space.symm

theorem map_toUpper_idem (l : List Char) :
    (l.map Char.toUpper).map Char.toUpper = l.map Char.toUpper := by
  rw [List.map_map]
  apply List.map_congr_left
  intro c _
  exact toUpper_toUpper c

/-- The list is empty or starts with a non-whitespace character. -/
def headOk (l : List Char) : Bool :=
  match l.head? with
  | none => true
  | some c => !pyIsSpace c

/-- The list is empty or ends with a non-whitespace character. -/
def lastOk (l : List Char) : Bool :=
  match l.getLast? with
  | none => true
  | some c => !pyIsSpace c

/-- Every whitespace character is a plain space not followed by whitespace. -/
def wsNormal : List Char → Bool
  | [] => true
  | [c] => !pyIsSpace c || (c == ' ')
  | c :: d :: r => (!pyIsSpace c || ((c == ' ') && !pyIsSpace d)) && wsNormal (d :: r)

theorem headOk_dropWhile (l : List Char) :
    headOk (l.dropWhile pyIsSpace) = true := by
  induction l with
  | nil => rfl
  | cons c cs ih =>
    rw [List.dropWhile_cons]
    split
    · exact ih
    · next h =>
      simp only [headOk, List.head?_cons, Bool.not_eq_true'] at h ⊢
      exact Bool.not_eq_true _ ▸ h

theorem dropWhile_eq_self_of_headOk (l : List Char) (h : headOk l = true) :
    l.dropWhile pyIsSpace = l := by
  cases l with
  | nil => rfl
  | cons c cs =>
    simp only [headOk, List.head?_cons, Bool.not_eq_true'] at h
    rw [List.dropWhile_cons, if_neg]
    rw [h]
    exact Bool.false_ne_true

theorem getLast?_dropWhile_or_nil (p : Char → Bool) (l : List Char) :
    (l.dropWhile p).getLast? = l.getLast? ∨ l.dropWhile p = [] := by
  obtain ⟨s, hs⟩ := List.dropWhile_suffix p (l := l)
  cases hg : (l.dropWhile p).getLast? with
  | none =>
    right
    rwa [List.getLast?_eq_none_iff] at hg
  | some c =>
    left
    have h2 := congrArg List.getLast? hs
    rw [List.getLast?_append, hg, Option.or_some] at h2
    exact h2

theorem headOk_pyStrip (l : List Char) : headOk (pyStrip l) = true := by
  unfold pyStrip
  rcases getLast?_dropWhile_or_nil pyIsSpace (l.dropWhile pyIsSpace).reverse with h | h
  · have hA := headOk_dropWhile l
    simp only [headOk, List.head?_reverse, h, List.getLast?_reverse]
    simpa only [headOk] using hA
  · rw [h]
    rfl

theorem lastOk_pyStrip (l : List Char) : lastOk (pyStrip l) = true := by
  unfold pyStrip
  have hB := headOk_dropWhile ((l.dropWhile pyIsSpace).reverse)
  simp only [lastOk, List.getLast?_reverse]
  simpa only [headOk] using hB

theorem pyStrip_eq_self (l : List Char) (h1 : headOk l = true) (h2 : lastOk l = true) :
    pyStrip l = l := by
  unfold pyStrip
  rw [dropWhile_eq_self_of_headOk l h1]
  rw [dropWhile_eq_self_of_headOk l.reverse
    (by simp only [headOk, List.head?_reverse]; simpa only [lastOk] using h2)]
  exact List.reverse_reverse l

theorem collapseWs_ne_nil (l : List Char) (h : l ≠ []) : collapseWs l ≠ [] := by
  induction l with
  | nil => exact absurd rfl h
  | cons c rest ih =>
    cases rest with
    | nil =>
      unfold collapseWs
      split <;> simp
    | cons d r2 =>
      cases hc : pyIsSpace c <;> cases hd : pyIsSpace d <;>
        simp only [collapseWs, hc, hd, Bool.false_eq_true, if_true, if_false] <;>
        first
        | exact ih (by simp)
        | simp

theorem headOk_collapseWs (l : List Char) (h : headOk l = true) :
    headOk (collapseWs l) = true := by
  cases l with
  | nil => rfl
  | cons c rest =>
    simp only [headOk, List.head?_cons, Bool.not_eq_true'] at h
    cases rest with
    | nil => simp [collapseWs, h, headOk]
    | cons d r2 => simp [collapseWs, h, headOk]

theorem lastOk_cons_of_ne_nil (x : Char) (t : List Char) (h : t ≠ []) :
    lastOk (x :: t) = lastOk t := by
  cases t with
  | nil => exact absurd rfl h
  | cons y ys => simp [lastOk, List.getLast?_cons_cons]

theorem lastOk_collapseWs (l : List Char) (h : lastOk l = true) :
    lastOk (collapseWs l) = true := by
  induction l with
  | nil => rfl
  | cons c rest ih =>
    cases rest with
    | nil =>
      simp only [lastOk, List.getLast?_singleton, Bool.not_eq_true'] at h
      simp [collapseWs, h, lastOk]
    | cons d r2 =>
      have h2 : lastOk (d :: r2) = true := by
        rwa [lastOk, List.getLast?_cons_cons] at h
      have ihx := ih h2
      have hnn : collapseWs (d :: r2) ≠ [] := collapseWs_ne_nil _ (by simp)
      cases hc : pyIsSpace c <;> cases hd : pyIsSpace d <;>
        simp only [collapseWs, hc, hd, Bool.false_eq_true, if_true, if_false] <;>
        first
        | exact ihx
        | (rw [lastOk_cons_of_ne_nil _ _ hnn]; exact ihx)

theorem wsNormal_cons_of (c : Char) (t : List Char)
    (h1 : pyIsSpace c = false ∨ (c = ' ' ∧ headOk t = true))
    (h2 : wsNormal t = true) : wsNormal (c :: t) = true := by
  cases t with
  | nil =>
    rcases h1 with h | ⟨h, -⟩
    · simp [wsNormal, h]
    · simp [wsNormal, h]
  | cons d r =>
    rcases h1 with h | ⟨h, hh⟩
    · simp [wsNormal, h, h2]
    · subst h
      simp only [headOk, List.head?_cons, Bool.not_eq_true'] at hh
      simp [wsNormal, h2, hh]

theorem wsNormal_collapseWs (l : List Char) : wsNormal (collapseWs l) = true := by
  induction l with
  | nil => rfl
  | cons c rest ih =>
    cases rest with
    | nil =>
      unfold collapseWs
      split
      · rfl
      · next hws =>
        simp only [Bool.not_eq_true] at hws
        simp [wsNormal, hws]
    | cons d r2 =>
      cases hc : pyIsSpace c <;> cases hd : pyIsSpace d <;>
        simp only [collapseWs, hc, hd, Bool.false_eq_true, if_true, if_false]
      · exact wsNormal_cons_of c _ (Or.inl hc) ih
      · exact wsNormal_cons_of c _ (Or.inl hc) ih
      · exact wsNormal_cons_of ' ' _
          (Or.inr ⟨rfl, headOk_collapseWs _ (by simp [headOk, hd])⟩) ih
      · exact ih

theorem wsNormal_tail (c : Char) (t : List Char) (h : wsNormal (c :: t) = true) :
    wsNormal t = true := by
  cases t with
  | nil => rfl
  | cons d r =>
    simp only [wsNormal, Bool.and_eq_true] at h
    exact h.2

theorem wsNormal_head (c d : Char) (r : List Char) (h : wsNormal (c :: d :: r) = true) :
    pyIsSpace c = false ∨ (c = ' ' ∧ pyIsSpace d = false) := by
  simp only [wsNormal, Bool.and_eq_true, Bool.or_eq_true, Bool.not_eq_true',
    Bool.and_eq_true, beq_iff_eq] at h
  exact h.1

theorem collapseWs_eq_self (l : List Char) (h : wsNormal l = true) : collapseWs l = l := by
  induction l with
  | nil => rfl
  | cons c rest ih =>
    cases rest with
    | nil =>
      cases hc : pyIsSpace c
      · simp [collapseWs, hc]
      · have hsp : c = ' ' := by
          simp only [wsNormal, hc, Bool.not_true, Bool.false_or, beq_iff_eq] at h
          exact h
        simp [collapseWs, hc, hsp]
    | cons d r2 =>
      have ihx := ih (wsNormal_tail c (d :: r2) h)
      have hsp : pyIsSpace ' ' = true := by decide
      rcases wsNormal_head c d r2 h with h1 | ⟨h1, hd⟩
      · simp [collapseWs, h1, ihx]
      · subst h1
        simp [collapseWs, hsp, hd, ihx]

theorem mem_collapseWs (l : List Char) (c : Char) (h : c ∈ collapseWs l) :
    c ∈ l ∨ c = ' ' := by
  induction l with
  | nil => simp [collapseWs] at h
  | cons a rest ih =>
    cases rest with
    | nil =>
      unfold collapseWs at h
      split at h
      · simp only [List.mem_singleton] at h
        exact Or.inr h
      · simp only [List.mem_singleton] at h
        exact Or.inl (by simp [h])
    | cons d r2 =>
      cases ha : pyIsSpace a <;> cases hd : pyIsSpace d <;>
        simp only [collapseWs, ha, hd, Bool.false_eq_true, if_true, if_false,
          List.mem_cons] at h
      · rcases h with h | h
        · exact Or.inl (by simp [h])
        · rcases ih h with h2 | h2
          · exact Or.inl (List.mem_cons_of_mem a h2)
          · exact Or.inr h2
      · rcases h with h | h
        · exact Or.inl (by simp [h])
        · rcases ih h with h2 | h2
          · exact Or.inl (List.mem_cons_of_mem a h2)
          · exact Or.inr h2
      · rcases h with h | h
        · exact Or.inr h
        · rcases ih h with h2 | h2
          · exact Or.inl (List.mem_cons_of_mem a h2)
          · exact Or.inr h2
      · rcases ih h with h2 | h2
        · exact Or.inl (List.mem_cons_of_mem a h2)
        · exact Or.inr h2

theorem mem_pyStrip (l : List Char) (c : Char) (h : c ∈ pyStrip l) : c ∈ l := by
  unfold pyStrip at h
  rw [List.mem_reverse] at h
  have h2 := (List.dropWhile_suffix pyIsSpace).sublist.mem h
  rw [List.mem_reverse] at h2
  exact (List.dropWhile_suffix pyIsSpace).sublist.mem h2

theorem keepAll_replaceSpecial (l : List Char) :
    ∀ c ∈ replaceSpecial l, keepChar c = true := by
  intro c hc
  rw [replaceSpecial, List.mem_map] at hc
  obtain ⟨a, -, ha⟩ := hc
  by_cases h : keepChar a = true
  · rw [← ha, if_pos h]
    exact h
  · rw [← ha, if_neg h]
    decide

theorem replaceSpecial_eq_self (l : List Char) (h : ∀ c ∈ l, keepChar c = true) :
    replaceSpecial l = l := by
  induction l with
  | nil => rfl
  | cons a rest ih =>
    simp only [replaceSpecial, List.map_cons] at ih ⊢
    rw [if_pos (h a (List.mem_cons_self a rest)), ih]
    intro c hc
    exact h c (List.mem_cons_of_mem a hc)

theorem keepAll_CS (l : List Char) (h : ∀ c ∈ l, keepChar c = true) :
    ∀ c ∈ collapseWs (pyStrip l), keepChar c = true := by
  intro c hc
  rcases mem_collapseWs _ _ hc with h2 | h2
  · exact h c (mem_pyStrip _ _ h2)
  · rw [h2]
    decide

theorem CS_idem (l : List Char) :
    collapseWs (pyStrip (collapseWs (pyStrip l))) = collapseWs (pyStrip l) := by
  rw [pyStrip_eq_self (collapseWs (pyStrip l))
    (headOk_collapseWs _ (headOk_pyStrip l)) (lastOk_collapseWs _ (lastOk_pyStrip l))]
  exact collapseWs_eq_self _ (wsNormal_collapseWs _)

theorem P_eq_CS_of_kept (y : List Char) (h : ∀ c ∈ y, keepChar c = true) :
    replaceSpecial (collapseWs (pyStrip y)) = collapseWs (pyStrip y) :=
  replaceSpecial_eq_self _ (keepAll_CS y h)

theorem P_three (x : List Char) :
    replaceSpecial (collapseWs (pyStrip (replaceSpecial (collapseWs (pyStrip
      (replaceSpecial (collapseWs (pyStrip x))))))))
      = replaceSpecial (collapseWs (pyStrip (replaceSpecial (collapseWs (pyStrip x))))) := by
  have e2 := P_eq_CS_of_kept (replaceSpecial (collapseWs (pyStrip x)))
    (keepAll_replaceSpecial _)
  rw [e2]
  have e3 := P_eq_CS_of_kept (collapseWs (pyStrip (replaceSpecial (collapseWs (pyStrip x)))))
    (keepAll_CS _ (keepAll_replaceSpecial _))
  rw [e3, CS_idem, ← e2]

theorem clean2_eq (x : List Char) :
    clean_text_tool (clean_text_tool x)
      = (replaceSpecial (collapseWs (pyStrip (replaceSpecial (collapseWs
          (pyStrip x)))))).map Char.toUpper := by
  show ((replaceSpecial (collapseWs (pyStrip ((replaceSpecial (collapseWs
    (pyStrip x))).map Char.toUpper)))).map Char.toUpper) = _
  rw [pyStrip_map_toUpper, collapseWs_map_toUpper, replaceSpecial_map_toUpper,
    map_toUpper_idem]

/-- C7 (amended): one application of `clean_text_tool` is not idempotent (the
spaces it substitutes for special characters are neither collapsed nor
stripped, that having happened earlier in the pipeline), but a second
application reaches a fixed point: for every input `x`,
`clean(clean(clean x)) = clean(clean x)`. -/
theorem c7_clean_clean_is_fixed_point (x : List Char) :
    clean_text_tool (clean_text_tool (clean_text_tool x))
      = clean_text_tool (clean_text_tool x) := by
  rw [clean2_eq x]
  show ((replaceSpecial (collapseWs (pyStrip ((replaceSpecial (collapseWs (pyStrip
    (replaceSpecial (collapseWs (pyStrip x)))))).map Char.toUpper)))).map Char.toUpper) = _
  rw [pyStrip_map_toUpper, collapseWs_map_toUpper, replaceSpecial_map_toUpper,
    map_toUpper_idem, P_three]

/-- C7 counterexample: `clean_text_tool` itself is not idempotent: on `"a!"`
it yields `"A "` (the `!` became a trailing space), and cleaning again yields
`"A"`. -/
theorem c7_clean_not_idempotent_counterexample :
    clean_text_tool (clean_text_tool "a!".toList) ≠ clean_text_tool "a!".toList ∧
    clean_text_tool "a!".toList = "A ".toList ∧
    clean_text_tool (clean_text_tool "a!".toList) = "A".toList := by
  refine ⟨by decide, by decide, by decide⟩
